import Mathlib

/-!
Shallow embedding of the vibe-time-rules subsystem of the sonos-controller
repository: interval arithmetic on the 24-hour circular domain, the rule
sanitizer/loader, the recommendation engine's rule matching and precedence
logic, the deterministic seeded selection, and the write-path guards.

Sources:
* `src/server.js` — `timeRangeContainsHour`, `getRecommendedPlaylists`.
* `src/unnamed/part_000` — multi-tenant `loadVibeTimeRules` and its
  `timeRangesOverlap` (strict `<` comparisons).
* `src/unnamed/part_002` — the historical `timeRangesOverlap` variant with
  inclusive comparisons.
* `src/vibeTimeRulesStore.js` — single-tenant `saveVibeTimeRule` and
  `deleteVibeTimeRule`.

JavaScript numbers that the schema constrains to integers are modelled as
`Nat` (hours, which all call sites keep in 0..23) or `Int` (raw repository
fields which may be out of range before sanitization).
-/

/-- Embeds `src/server.js:1050-1068`.  `timeRangeContainsHour(startHour, endHour, hour)`:
special case `endHour === 0 && startHour > 0` returns `hour >= startHour && hour <= 23`;
a normal range `startHour <= endHour` returns `hour >= startHour && hour < endHour`;
a wraparound range returns `hour >= startHour || hour < endHour`. -/
def timeRangeContainsHour (startHour endHour hour : Nat) : Bool :=
  if endHour = 0 ∧ 0 < startHour then
    decide (startHour ≤ hour ∧ hour ≤ 23)
  else if startHour ≤ endHour then
    decide (startHour ≤ hour ∧ hour < endHour)
  else
    decide (startHour ≤ hour ∨ hour < endHour)

/-- Spec-side membership in the half-open circular interval `[s, e)`:
`h` is in the interval iff, walking forward from `s` (wrapping past 23 to 0),
`h` is reached strictly before `e` is.  The spec's midnight special case
(`end = 0`, `start > 0` means hours `start..23`) is written out as in §4.1. -/
def specContainsHour (s e h : Nat) : Bool :=
  if e = 0 ∧ 0 < s then
    decide (s ≤ h ∧ h ≤ 23)
  else
    decide ((h + 24 - s) % 24 < (e + 24 - s) % 24)

namespace Part000

/-- Embeds `src/unnamed/part_000:101-118`.  `timeRangesOverlap(start1, end1, start2, end2)`
with strict `<` comparisons in the non-wrapping case.  The JS function recurses;
on hour arguments (0..23) the recursion depth is at most 2, so a fuel of 3
makes the fuelled function agree with the JS one on the whole hour domain. -/
def timeRangesOverlapF : Nat → Nat → Nat → Nat → Nat → Bool
  | 0, _, _, _, _ => false
  | fuel + 1, start1, end1, start2, end2 =>
    if start1 ≤ end1 ∧ start2 ≤ end2 then
      decide (start1 < end2 ∧ start2 < end1)
    else if end1 < start1 then
      timeRangesOverlapF fuel 0 end1 start2 end2 ||
        timeRangesOverlapF fuel start1 23 start2 end2
    else if end2 < start2 then
      timeRangesOverlapF fuel start1 end1 0 end2 ||
        timeRangesOverlapF fuel start1 end1 start2 23
    else
      false

def timeRangesOverlap (start1 end1 start2 end2 : Nat) : Bool :=
  timeRangesOverlapF 3 start1 end1 start2 end2

end Part000

namespace Part002

/-- Embeds `src/unnamed/part_002:252-268`.  Same recursion shape as the part_000
variant, but the non-wrapping case is `!(end1 < start2 || end2 < start1)`,
an inclusive comparison. -/
def timeRangesOverlapF : Nat → Nat → Nat → Nat → Nat → Bool
  | 0, _, _, _, _ => false
  | fuel + 1, start1, end1, start2, end2 =>
    if start1 ≤ end1 ∧ start2 ≤ end2 then
      !(decide (end1 < start2) || decide (end2 < start1))
    else if end1 < start1 then
      timeRangesOverlapF fuel 0 end1 start2 end2 ||
        timeRangesOverlapF fuel start1 23 start2 end2
    else if end2 < start2 then
      timeRangesOverlapF fuel start1 end1 0 end2 ||
        timeRangesOverlapF fuel start1 end1 start2 23
    else
      false

def timeRangesOverlap (start1 end1 start2 end2 : Nat) : Bool :=
  timeRangesOverlapF 3 start1 end1 start2 end2

end Part002

/-! Section: Recommendation engine rule matching (`src/server.js:1093-1130`) -/

/-- A rule as seen by the engine: the shape the loader pushes
(`id, name, start_hour, end_hour, allowed_vibes, days, rule_type`), with the
fields the engine reads.  `days = none` models a `null`/absent days column. -/
structure Rule where
  id : Nat
  start_hour : Nat
  end_hour : Nat
  allowed_vibes : List String
  days : Option (List Nat)
  rule_type : String
deriving DecidableEq

/-- Embeds `src/server.js:1093`: `allRules.filter(r => r.rule_type === 'base')`. -/
def baseRules (rules : List Rule) : List Rule :=
  rules.filter (fun r => r.rule_type == "base")

/-- Embeds `src/server.js:1094`: `allRules.filter(r => r.rule_type === 'override')`. -/
def overrideRules (rules : List Rule) : List Rule :=
  rules.filter (fun r => r.rule_type == "override")

/-- Embeds `src/server.js:1097-1099`: base rules whose time range contains the hour. -/
def matchingBaseRules (rules : List Rule) (currentHour : Nat) : List Rule :=
  (baseRules rules).filter (fun r =>
    timeRangeContainsHour r.start_hour r.end_hour currentHour)

/-- Embeds `src/server.js:1102-1112`, the body of the override filter: a rule passes
only when `days` is an array of length exactly 1, its sole entry equals the
current day, and the time range contains the current hour.  (In JS an empty
array is truthy, so `!rule.days` only rejects `null`/`undefined`; the length
check then rejects everything but one-element arrays.) -/
def overrideRuleMatches (currentHour currentDay : Nat) (r : Rule) : Bool :=
  match r.days with
  | none => false
  | some ds =>
    if ds.length ≠ 1 then false
    else if ds.head? ≠ some currentDay then false
    else timeRangeContainsHour r.start_hour r.end_hour currentHour

/-- Embeds `src/server.js:1102-1112`: override rules for the current day matching the hour. -/
def matchingOverrideRules (rules : List Rule) (currentHour currentDay : Nat) : List Rule :=
  (overrideRules rules).filter (overrideRuleMatches currentHour currentDay)

/-- Embeds `src/server.js:1117-1124`: overrides replace base rules when any override matches. -/
def activeRules (rules : List Rule) (currentHour currentDay : Nat) : List Rule :=
  if 0 < (matchingOverrideRules rules currentHour currentDay).length then
    matchingOverrideRules rules currentHour currentDay
  else
    matchingBaseRules rules currentHour

/-- One `Set.add` step of `src/server.js:1127-1130` (JS `Set` keeps insertion
order and ignores duplicates). -/
def addVibe (s : List String) (v : String) : List String :=
  if v ∈ s then s else s ++ [v]

/-- Embeds `src/server.js:1126-1130`: collect all allowed vibes from the active rules. -/
def allowedVibes (active : List Rule) : List String :=
  active.foldl (fun s r => r.allowed_vibes.foldl addVibe s) []

/-! Section: Deterministic seeded selection (`src/server.js:1211-1253`) -/

/-- Wrap an integer to a 32-bit signed value, as JS bitwise operators do. -/
def toInt32 (x : Int) : Int :=
  let r := x % 4294967296
  if r < 2147483648 then r else r - 4294967296

/-- One step of the rolling hash at `src/server.js:1239-1243`:
`seedValue = ((seedValue << 5) - seedValue) + char; seedValue = seedValue & seedValue`.
`<< 5` multiplies by 32 and wraps to int32; `x & x` wraps the sum to int32. -/
def hashStep (seed : Int) (c : Nat) : Int :=
  toInt32 (toInt32 (seed * 32) - seed + c)

/-- The full rolling hash over the seed string's char codes, starting from 0. -/
def hashString (s : String) : Int :=
  s.data.foldl (fun seed ch => hashStep seed ch.toNat) 0

/-- JS `String` comparison on lists of char codes (used by the default
`Array.prototype.sort` comparator). -/
def charListLe : List Char → List Char → Bool
  | [], _ => true
  | _ :: _, [] => false
  | a :: as, b :: bs =>
    if a.toNat < b.toNat then true
    else if b.toNat < a.toNat then false
    else charListLe as bs

/-- Default JS sort order for the numeric rule ids: compare decimal strings. -/
def jsIdLe (a b : Nat) : Bool :=
  charListLe (toString a).data (toString b).data

def insertSortedId (a : Nat) : List Nat → List Nat
  | [] => [a]
  | b :: bs => if jsIdLe a b then a :: b :: bs else b :: insertSortedId a bs

/-- Embeds `activeRules.map(r => r.id).sort()` at `src/server.js:1235` — JS default
sort compares elements as strings. -/
def jsSortIds (l : List Nat) : List Nat :=
  l.foldr insertSortedId []

/-- Embeds `ruleIds.join(',')`. -/
def joinIds (l : List Nat) : String :=
  String.intercalate "," (l.map toString)

/-- Embeds `src/server.js:1235-1246`: seed from the sorted, comma-joined rule ids and
the date string, hashed and made non-negative with `Math.abs`. -/
def seedFor (ruleIds : List Nat) (dateString : String) : Nat :=
  (hashString (joinIds (jsSortIds ruleIds) ++ "-" ++ dateString)).natAbs

/-- A candidate item (favorite); only identity matters to the selection. -/
structure Item where
  id : String
  name : String
deriving DecidableEq

/-- Embeds `matchingPlaylists.filter((_, index) => index !== primaryIndex)` at
`src/server.js:1253`, with `j` the index of the head of the remaining list. -/
def filterOutIdxAux (i : Nat) (j : Nat) : List Item → List Item
  | [] => []
  | a :: as =>
    if j = i then filterOutIdxAux i (j + 1) as
    else a :: filterOutIdxAux i (j + 1) as

def filterOutIdx (i : Nat) (l : List Item) : List Item :=
  filterOutIdxAux i 0 l

/-- Embeds `src/server.js:1214-1253`: the seed is computed only when there are active
rules (`activeRules.length > 0`), else it stays 0; then
`primaryIndex = seedValue % matchingPlaylists.length`,
`primary = matchingPlaylists[primaryIndex]`, and the alternatives drop exactly
the primary index. -/
def selectRecommendation (ruleIds : List Nat) (dateString : String)
    (items : List Item) : Option Item × List Item :=
  let seedValue : Nat := if 0 < ruleIds.length then seedFor ruleIds dateString else 0
  let primaryIndex := seedValue % items.length
  (items.get? primaryIndex, filterOutIdx primaryIndex items)

/-! Section: Rule sanitizer/loader (`src/unnamed/part_000:5-90`) -/

def VALID_VIBES : List String := ["Down", "Down/Mid", "Mid"]

/-- The JS `days` column as the sanitizer distinguishes it:
`null`/`undefined`, present but not an array, or an array whose elements may
fail `typeof day === 'number'` (`none`). -/
inductive JsDays where
  | missing
  | notArray
  | arr (days : List (Option Int))
deriving DecidableEq

/-- A raw repository row.  `none` in a field models a value failing the
corresponding `typeof` check in the sanitizer (the schema types the columns,
but the sanitizer defends against arbitrary rows). -/
structure RawRow where
  id : Option Int
  name : Option String
  start_hour : Option Int
  end_hour : Option Int
  allowed_vibes : Option (List (Option String))
  days : JsDays
  rule_type : Option String
deriving DecidableEq

/-- A sanitized rule as pushed at `src/unnamed/part_000:72-80`. -/
structure SanitizedRule where
  id : Int
  name : Option String
  start_hour : Int
  end_hour : Int
  allowed_vibes : List String
  days : Option (List Int)
  rule_type : String
deriving DecidableEq

/-- Embeds `src/unnamed/part_000:41-43`:
`row.allowed_vibes.filter(v => typeof v === 'string' && VALID_VIBES.includes(v))`. -/
def filterValidVibes (vibes : List (Option String)) : List String :=
  vibes.filterMap fun v =>
    match v with
    | some s => if s ∈ VALID_VIBES then some s else none
    | none => none

/-- Embeds `src/unnamed/part_000:50-52`:
`row.days.filter(day => typeof day === 'number' && day >= 0 && day <= 6)`. -/
def filterValidDays (days : List (Option Int)) : List Int :=
  days.filterMap fun d =>
    match d with
    | some n => if 0 ≤ n ∧ n ≤ 6 then some n else none
    | none => none

/-- Embeds `[...new Set(xs)]`: keep the first occurrence of each element,
in insertion order. -/
def jsSetDedupAux (seen : List Int) : List Int → List Int
  | [] => []
  | a :: as =>
    if a ∈ seen then jsSetDedupAux seen as
    else a :: jsSetDedupAux (a :: seen) as

def jsSetDedup (l : List Int) : List Int :=
  jsSetDedupAux [] l

/-- Embeds `src/unnamed/part_000:54`: `[...new Set(filteredDays)].sort()` — on the
filtered single-digit day values, JS string sort coincides with numeric sort. -/
def sortedUniqueDays (days : List (Option Int)) : List Int :=
  List.insertionSort (· ≤ ·) (jsSetDedup (filterValidDays days))

/-- Embeds `src/unnamed/part_000:35-39`:
`let ruleType = row.rule_type; if (!ruleType || (ruleType !== 'base' && ruleType !== 'override')) ruleType = 'base'`
(an empty string is falsy, so it also defaults to `'base'`). -/
def defaultedRuleType (rt : Option String) : String :=
  match rt with
  | some "base" => "base"
  | some "override" => "override"
  | _ => "base"

/-- Embeds `src/unnamed/part_000:22-83`: the sanitizer body for one row; `none` means
the row is dropped. -/
def sanitizeRow (row : RawRow) : Option SanitizedRule :=
  match row.id, row.start_hour, row.end_hour, row.allowed_vibes with
  | some idv, some sh, some eh, some vibesArr =>
    if 0 ≤ sh ∧ sh ≤ 23 ∧ 0 ≤ eh ∧ eh ≤ 23 ∧ 0 < vibesArr.length then
      let ruleType := defaultedRuleType row.rule_type
      let validVibes := filterValidVibes vibesArr
      if 0 < validVibes.length then
        if ruleType = "override" then
          match row.days with
          | JsDays.arr ds =>
            let validDays := sortedUniqueDays ds
            if validDays.length = 0 then none
            else
              some { id := idv, name := row.name.map String.trim,
                     start_hour := sh, end_hour := eh,
                     allowed_vibes := validVibes,
                     days := some validDays, rule_type := ruleType }
          | _ => none
        else
          match row.days with
          | JsDays.missing =>
            some { id := idv, name := row.name.map String.trim,
                   start_hour := sh, end_hour := eh,
                   allowed_vibes := validVibes,
                   days := none, rule_type := ruleType }
          | _ => none
      else none
    else none
  | _, _, _, _ => none

/-- The repository outcome seen by the loader: a successful query (with
possibly-null data), a query returning an `error` field, or a thrown error. -/
inductive RepoResult where
  | ok (data : Option (List RawRow))
  | err
  | raise
deriving DecidableEq

/-- Embeds `src/unnamed/part_000:5-90`.  `loadVibeTimeRules(householdName)`: throws
when `householdName` is falsy (absent or the empty string); returns `[]` when
the query reports an error or raises; otherwise sanitizes `data || []`.
An `Except.error` models a thrown JS error. -/
def loadVibeTimeRules (householdName : Option String) (repo : RepoResult) :
    Except String (List SanitizedRule) :=
  if householdName = none ∨ householdName = some "" then
    Except.error "Household name is required to load vibe time rules"
  else
    match repo with
    | RepoResult.err => Except.ok []
    | RepoResult.raise => Except.ok []
    | RepoResult.ok data => Except.ok ((data.getD []).filterMap sanitizeRow)

/-! Section: Write path (`src/vibeTimeRulesStore.js:52-139`, single-tenant variant) -/

/-- A call issued to the repository by the write path. -/
inductive RepoOp where
  | insertOp (start_hour end_hour : Int) (allowed_vibes : List String)
  | updateOp (id : Int) (start_hour end_hour : Int) (allowed_vibes : List String)
  | deleteOp (id : Int)
deriving DecidableEq

/-- The argument of `saveVibeTimeRule`; `none` models a missing field or one
failing the `typeof` check. -/
structure SaveRuleInput where
  id : Option Int
  start_hour : Option Int
  end_hour : Option Int
  allowed_vibes : Option (List (Option String))
deriving DecidableEq

/-- Embeds `src/vibeTimeRulesStore.js:52-122`.  Validation, then `if (rule.id)`
chooses update (truthy: a number other than 0) or insert.  The result pairs
the repository calls issued with the outcome (`Except.error` models a thrown
error); the repository itself is taken to succeed. -/
def saveVibeTimeRule (rule : SaveRuleInput) : List RepoOp × Except String Unit :=
  match rule.start_hour, rule.end_hour with
  | some sh, some eh =>
    if sh < 0 ∨ 23 < sh ∨ eh < 0 ∨ 23 < eh then
      ([], Except.error "Hours must be between 0 and 23")
    else
      match rule.allowed_vibes with
      | none => ([], Except.error "At least one allowed vibe is required")
      | some vibesArr =>
        if vibesArr.length = 0 then
          ([], Except.error "At least one allowed vibe is required")
        else
          let validVibes := filterValidVibes vibesArr
          if validVibes.length = 0 then
            ([], Except.error "At least one valid vibe is required")
          else
            match rule.id with
            | some idv =>
              if idv ≠ 0 then ([RepoOp.updateOp idv sh eh validVibes], Except.ok ())
              else ([RepoOp.insertOp sh eh validVibes], Except.ok ())
            | none => ([RepoOp.insertOp sh eh validVibes], Except.ok ())
  | _, _ => ([], Except.error "Invalid rule data")

/-- Embeds `src/vibeTimeRulesStore.js:124-139`.  `if (!id || typeof id !== 'number')`
throws before any repository call; `0` is falsy in JS. -/
def deleteVibeTimeRule (id : Int) : List RepoOp × Except String Unit :=
  if id = 0 then ([], Except.error "Invalid rule ID")
  else ([RepoOp.deleteOp id], Except.ok ())

/-! Section: Helper lemmas -/

theorem mem_foldl_addVibe (v : String) (vs : List String) (init : List String) :
    v ∈ vs.foldl addVibe init ↔ v ∈ init ∨ v ∈ vs := by
  induction vs generalizing init with
  | nil => simp
  | cons a as ih =>
    simp only [List.foldl_cons, ih]
    unfold addVibe
    split_ifs with ha
    · simp only [List.mem_cons]
      constructor
      · rintro (h | h)
        · exact Or.inl h
        · exact Or.inr (Or.inr h)
      · rintro (h | h | h)
        · exact Or.inl h
        · exact Or.inl (h ▸ ha)
        · exact Or.inr h
    · simp only [List.mem_append, List.mem_singleton, List.mem_cons]
      tauto

theorem mem_allowedVibes (v : String) (l : List Rule) :
    v ∈ allowedVibes l ↔ ∃ r ∈ l, v ∈ r.allowed_vibes := by
  have aux : ∀ (l : List Rule) (init : List String),
      v ∈ l.foldl (fun s r => r.allowed_vibes.foldl addVibe s) init ↔
        v ∈ init ∨ ∃ r ∈ l, v ∈ r.allowed_vibes := by
    intro l
    induction l with
    | nil => simp
    | cons a as ih =>
      intro init
      simp only [List.foldl_cons, ih, mem_foldl_addVibe, List.exists_mem_cons_iff]
      tauto
  simpa using aux l []

theorem filterOutIdxAux_shift (i j : Nat) (l : List Item) :
    filterOutIdxAux (i + 1) (j + 1) l = filterOutIdxAux i j l := by
  induction l generalizing i j with
  | nil => rfl
  | cons a as ih =>
    simp only [filterOutIdxAux, Nat.add_right_cancel_iff, ih]

theorem filterOutIdxAux_big (i j : Nat) (h : i < j) (l : List Item) :
    filterOutIdxAux i j l = l := by
  induction l generalizing j with
  | nil => rfl
  | cons a as ih =>
    simp only [filterOutIdxAux]
    rw [if_neg (by omega), ih (j + 1) (by omega)]

theorem filterOutIdx_eq_eraseIdx (i : Nat) (l : List Item) :
    filterOutIdx i l = l.eraseIdx i := by
  induction l generalizing i with
  | nil => simp [filterOutIdx, filterOutIdxAux, List.eraseIdx]
  | cons a as ih =>
    cases i with
    | zero =>
      simp only [filterOutIdx, filterOutIdxAux, if_pos rfl, List.eraseIdx]
      exact filterOutIdxAux_big 0 1 (by omega) as
    | succ n =>
      simp only [filterOutIdx, filterOutIdxAux, List.eraseIdx]
      rw [if_neg (by omega)]
      have h1 : filterOutIdxAux (n + 1) 1 as = filterOutIdxAux n 0 as :=
        filterOutIdxAux_shift n 0 as
      rw [h1]
      exact congrArg (a :: ·) (ih n)

theorem mem_jsSetDedupAux (x : Int) (seen l : List Int) :
    x ∈ jsSetDedupAux seen l ↔ x ∈ l ∧ x ∉ seen := by
  induction l generalizing seen with
  | nil => simp [jsSetDedupAux]
  | cons a as ih =>
    simp only [jsSetDedupAux]
    split_ifs with ha
    · rw [ih]
      simp only [List.mem_cons]
      constructor
      · rintro ⟨h1, h2⟩
        exact ⟨Or.inr h1, h2⟩
      · rintro ⟨h1 | h1, h2⟩
        · exact absurd (h1 ▸ ha) h2
        · exact ⟨h1, h2⟩
    · simp only [List.mem_cons, ih, List.mem_cons]
      constructor
      · rintro (h | ⟨h1, h2⟩)
        · exact ⟨Or.inl h, h ▸ ha⟩
        · exact ⟨Or.inr h1, fun hx => h2 (Or.inr hx)⟩
      · rintro ⟨h1 | h1, h2⟩
        · exact Or.inl h1
        · by_cases hxa : x = a
          · exact Or.inl hxa
          · exact Or.inr ⟨h1, fun hx => (by tauto : x ∈ seen → False) (by
              rcases hx with hx | hx
              · exact absurd hx hxa
              · exact hx)⟩

theorem nodup_jsSetDedupAux (seen l : List Int) : (jsSetDedupAux seen l).Nodup := by
  induction l generalizing seen with
  | nil => simp [jsSetDedupAux]
  | cons a as ih =>
    simp only [jsSetDedupAux]
    split_ifs with ha
    · exact ih seen
    · refine List.Nodup.cons ?_ (ih (a :: seen))
      intro hmem
      exact ((mem_jsSetDedupAux a (a :: seen) as).mp hmem).2 (List.mem_cons_self a seen)

theorem mem_filterValidVibes (v : String) (vs : List (Option String))
    (h : v ∈ filterValidVibes vs) : v ∈ VALID_VIBES := by
  simp only [filterValidVibes, List.mem_filterMap] at h
  obtain ⟨a, _, ha⟩ := h
  cases a with
  | none => simp at ha
  | some s =>
    simp only at ha
    split_ifs at ha with hs
    cases ha
    exact hs

theorem mem_filterValidDays (d : Int) (ds : List (Option Int))
    (h : d ∈ filterValidDays ds) : 0 ≤ d ∧ d ≤ 6 := by
  simp only [filterValidDays, List.mem_filterMap] at h
  obtain ⟨a, _, ha⟩ := h
  cases a with
  | none => simp at ha
  | some n =>
    simp only at ha
    split_ifs at ha with hn
    cases ha
    exact hn

theorem sortedUniqueDays_spec (ds : List (Option Int)) :
    (sortedUniqueDays ds).Nodup ∧ List.Sorted (· ≤ ·) (sortedUniqueDays ds) ∧
      ∀ d ∈ sortedUniqueDays ds, 0 ≤ d ∧ d ≤ 6 := by
  unfold sortedUniqueDays
  refine ⟨?_, List.sorted_insertionSort _ _, ?_⟩
  · exact (List.perm_insertionSort _ _).nodup_iff.mpr
      (nodup_jsSetDedupAux [] (filterValidDays ds))
  · intro d hd
    have hd2 : d ∈ jsSetDedup (filterValidDays ds) :=
      (List.perm_insertionSort _ _).mem_iff.mp hd
    have hd3 : d ∈ filterValidDays ds :=
      ((mem_jsSetDedupAux d [] (filterValidDays ds)).mp hd2).1
    exact mem_filterValidDays d ds hd3

theorem defaultedRuleType_cases (rt : Option String) :
    defaultedRuleType rt = "base" ∨ defaultedRuleType rt = "override" := by
  unfold defaultedRuleType
  split
  · exact Or.inl rfl
  · exact Or.inr rfl
  · exact Or.inl rfl

/-! Section: Claim theorems -/

/-- C1: the overlap test is claimed to return true iff the two half-open
circular intervals share an hour, with a wrapping interval containing hour 23,
so that the wrapping intervals starting at 19 and at 23 (which share hour 23)
must overlap.  The code splits a wrapping range into the pair `(0, end)` and
`(start, 23)` with an exclusive end, dropping hour 23: on the input
`(19, 0, 23, 4)` it returns `false` although hour 23 lies in both circular
intervals (as `specContainsHour` shows). -/
theorem c1_overlap_misses_hour23 :
    Part000.timeRangesOverlap 19 0 23 4 = false ∧
    specContainsHour 19 0 23 = true ∧ specContainsHour 23 4 23 = true := by
  decide

set_option maxHeartbeats 2000000 in
/-- C3: for all hours in 0..23, `timeRangeContainsHour` agrees with circular
half-open membership in `[start, end)` walking forward from `start` (wrapping
past 23 to 0), including the midnight special case; additionally the claim's
concrete instances: `containsHour(19,0,23)` is true, `containsHour(19,0,0)` is
false, and for start 22 / end 6 exactly hours 22,23,0,1,2,3,4,5 are contained. -/
theorem c3_contains_iff_spec :
    (∀ s < 24, ∀ e < 24, ∀ h < 24,
        timeRangeContainsHour s e h = specContainsHour s e h) ∧
    timeRangeContainsHour 19 0 23 = true ∧
    timeRangeContainsHour 19 0 0 = false ∧
    (∀ h < 24, timeRangeContainsHour 22 6 h =
        decide (h ∈ [22, 23, 0, 1, 2, 3, 4, 5])) := by
  exact ⟨by decide, by decide, by decide, by decide⟩

/-- Witness for C3 at the concrete input start 19, end 0, hour 23. -/
theorem c3_witness :
    timeRangeContainsHour 19 0 23 = specContainsHour 19 0 23 :=
  c3_contains_iff_spec.1 19 (by decide) 0 (by decide) 23 (by decide)

/-- C9: a rule whose start hour equals its end hour matches no hour at all
(the empty interval, not a full 24-hour wraparound), including start 0. -/
theorem c9_empty_interval (s h : Nat) (hs : s ≤ 23) (hh : h ≤ 23) :
    timeRangeContainsHour s s h = false := by
  unfold timeRangeContainsHour
  split_ifs with h1 h2
  · exact absurd h1.1 (by omega)
  · simp only [decide_eq_false_iff_not]
    omega
  · exact absurd (le_refl s) h2

/-- Witness for C9 at start = end = 5, hour 7. -/
theorem c9_witness : timeRangeContainsHour 5 5 7 = false :=
  c9_empty_interval 5 7 (by decide) (by decide)

/-- C5 counterexample: the claim asserts adjacency-exclusivity for both
overlap-test implementations, but the historical variant in
`src/unnamed/part_002` uses inclusive comparisons and reports the adjacent
half-open intervals `[6,12)` and `[12,17)` as overlapping. -/
theorem c5_counterexample : Part002.timeRangesOverlap 6 12 12 17 = true := by
  decide

/-- C5 amended: for the `src/unnamed/part_000` implementation (the one with
strict `<`), non-wrapping adjacent intervals `[a,b)` and `[b,c)` never overlap,
and the claim's concrete instances hold; the `src/unnamed/part_002` variant
instead reports adjacent intervals as overlapping. -/
theorem c5_adjacency_amended :
    (∀ a b c : Nat, a < b → b ≤ c → c ≤ 23 →
        Part000.timeRangesOverlap a b b c = false) ∧
    Part000.timeRangesOverlap 6 12 12 17 = false ∧
    Part000.timeRangesOverlap 6 13 12 17 = true ∧
    Part002.timeRangesOverlap 6 12 12 17 = true := by
  refine ⟨?_, by decide, by decide, by decide⟩
  intro a b c hab hbc _
  simp only [Part000.timeRangesOverlap, Part000.timeRangesOverlapF]
  rw [if_pos ⟨Nat.le_of_lt hab, hbc⟩]
  simp

/-- Witness for C5 at the adjacent intervals `[6,12)` and `[12,17)`. -/
theorem c5_witness : Part000.timeRangesOverlap 6 12 12 17 = false :=
  c5_adjacency_amended.1 6 12 17 (by decide) (by decide) (by decide)

/-- C2 counterexample: an override rule whose days list is `[1, 2]` does not
match on day 1 at hour 10, although day 1 is in its days list and its time
window contains hour 10 — the engine demands a days list of length exactly 1. -/
theorem c2_counterexample :
    overrideRuleMatches 10 1
      { id := 1, start_hour := 9, end_hour := 17, allowed_vibes := ["Mid"],
        days := some [1, 2], rule_type := "override" } = false ∧
    (1 : Nat) ∈ [1, 2] ∧
    timeRangeContainsHour 9 17 10 = true := by
  decide

/-- C2 amended: an override rule is a matching override exactly when its days
list is the one-element list containing the current day and its time window
contains the current hour; override rules listing two or more days never match. -/
theorem c2_override_match_amended (currentHour currentDay : Nat) (r : Rule) :
    overrideRuleMatches currentHour currentDay r = true ↔
      r.days = some [currentDay] ∧
        timeRangeContainsHour r.start_hour r.end_hour currentHour = true := by
  unfold overrideRuleMatches
  cases hd : r.days with
  | none => simp
  | some ds =>
    cases ds with
    | nil => simp
    | cons d rest =>
      cases rest with
      | nil =>
        by_cases hdc : d = currentDay
        · subst hdc
          simp
        · simp [hdc]
      | cons e rest2 => simp

/-- C4: when at least one override rule matches the current day and hour, the
active rule set is exactly the matching override rules (all of rule type
`override`, so no base vibes contribute); otherwise it is the matching base
rules; and the allowed-vibes set is the union of `allowed_vibes` over the
active rules. -/
theorem c4_precedence (rules : List Rule) (hr day : Nat) :
    (matchingOverrideRules rules hr day ≠ [] →
        activeRules rules hr day = matchingOverrideRules rules hr day ∧
        ∀ r ∈ activeRules rules hr day, r.rule_type = "override") ∧
    (matchingOverrideRules rules hr day = [] →
        activeRules rules hr day = matchingBaseRules rules hr) ∧
    (∀ v, v ∈ allowedVibes (activeRules rules hr day) ↔
        ∃ r ∈ activeRules rules hr day, v ∈ r.allowed_vibes) := by
  refine ⟨?_, ?_, fun v => mem_allowedVibes v _⟩
  · intro hne
    have hpos : 0 < (matchingOverrideRules rules hr day).length :=
      List.length_pos.mpr hne
    constructor
    · rw [activeRules, if_pos hpos]
    · intro r hrmem
      rw [activeRules, if_pos hpos] at hrmem
      simp only [matchingOverrideRules, overrideRules, List.mem_filter] at hrmem
      exact eq_of_beq hrmem.1.2
  · intro hemp
    rw [activeRules, hemp]
    simp

/-- Witness for C4: a single matching override rule on day 1 at hour 20 is the
whole active rule set, and every active rule is an override. -/
theorem c4_witness :
    activeRules
        [{ id := 2, start_hour := 19, end_hour := 23,
           allowed_vibes := ["Down"], days := some [1],
           rule_type := "override" }] 20 1 =
      matchingOverrideRules
        [{ id := 2, start_hour := 19, end_hour := 23,
           allowed_vibes := ["Down"], days := some [1],
           rule_type := "override" }] 20 1 ∧
    ∀ r ∈ activeRules
        [{ id := 2, start_hour := 19, end_hour := 23,
           allowed_vibes := ["Down"], days := some [1],
           rule_type := "override" }] 20 1,
      r.rule_type = "override" :=
  (c4_precedence
    [{ id := 2, start_hour := 19, end_hour := 23,
       allowed_vibes := ["Down"], days := some [1],
       rule_type := "override" }] 20 1).1 (by decide)

/-- C6: the seeded selection is deterministic — two invocations with the same
active rule ids, the same date string, and the same filtered item list return
the same result; the primary is the item at index
`abs(hash(sortedIds ++ "-" ++ date)) mod length`, and the alternatives are the
filtered list with exactly the primary index removed, order preserved. -/
theorem c6_determinism (ids1 ids2 : List Nat) (d1 d2 : String)
    (items1 items2 : List Item)
    (hids : ids1 = ids2) (hd : d1 = d2) (hitems : items1 = items2)
    (hact : ids1 ≠ []) (hne : items1 ≠ []) :
    selectRecommendation ids1 d1 items1 = selectRecommendation ids2 d2 items2 ∧
    (selectRecommendation ids1 d1 items1).1 =
      items1.get? (seedFor ids1 d1 % items1.length) ∧
    (selectRecommendation ids1 d1 items1).2 =
      items1.eraseIdx (seedFor ids1 d1 % items1.length) := by
  subst hids hd hitems
  have hpos : 0 < ids1.length := List.length_pos.mpr hact
  refine ⟨rfl, ?_, ?_⟩
  · simp only [selectRecommendation]
    rw [if_pos hpos]
  · simp only [selectRecommendation]
    rw [if_pos hpos]
    exact filterOutIdx_eq_eraseIdx _ _

/-- Witness for C6 at rule id 3, date 2025-01-01 and a one-item list. -/
theorem c6_witness :
    selectRecommendation [3] "2025-01-01" [{ id := "a", name := "A" }] =
      selectRecommendation [3] "2025-01-01" [{ id := "a", name := "A" }] ∧
    (selectRecommendation [3] "2025-01-01" [{ id := "a", name := "A" }]).1 =
      [({ id := "a", name := "A" } : Item)].get?
        (seedFor [3] "2025-01-01" % [({ id := "a", name := "A" } : Item)].length) ∧
    (selectRecommendation [3] "2025-01-01" [{ id := "a", name := "A" }]).2 =
      [({ id := "a", name := "A" } : Item)].eraseIdx
        (seedFor [3] "2025-01-01" % [({ id := "a", name := "A" } : Item)].length) :=
  c6_determinism [3] [3] "2025-01-01" "2025-01-01"
    [{ id := "a", name := "A" }] [{ id := "a", name := "A" }]
    rfl rfl rfl (by simp) (by simp)

/-- C7 counterexample: with an absent household identifier the multi-tenant
loader throws (`Household name is required to load vibe time rules`) instead of
returning a list, so the loader is not total in its household argument. -/
theorem c7_counterexample :
    loadVibeTimeRules none (RepoResult.ok (some [])) =
      Except.error "Household name is required to load vibe time rules" := rfl

/-- C7 amended: provided a present, non-empty household identifier, the loader
never throws — a repository error or raised exception is swallowed and the
empty list is returned; with an absent or empty household identifier it throws
before contacting the repository. -/
theorem c7_load_amended (hh : Option String) (repo : RepoResult)
    (h1 : hh ≠ none) (h2 : hh ≠ some "") :
    ((repo = RepoResult.err ∨ repo = RepoResult.raise) →
        loadVibeTimeRules hh repo = Except.ok []) ∧
    ∃ l, loadVibeTimeRules hh repo = Except.ok l := by
  have hcond : ¬(hh = none ∨ hh = some "") := by tauto
  unfold loadVibeTimeRules
  rw [if_neg hcond]
  cases repo with
  | ok data =>
    refine ⟨?_, ⟨_, rfl⟩⟩
    rintro (h | h) <;> exact absurd h (by simp)
  | err => exact ⟨fun _ => rfl, ⟨[], rfl⟩⟩
  | raise => exact ⟨fun _ => rfl, ⟨[], rfl⟩⟩

/-- Witness for C7: household "house" with a repository error yields the empty
rule list rather than an exception. -/
theorem c7_witness :
    ((RepoResult.err = RepoResult.err ∨ RepoResult.err = RepoResult.raise) →
        loadVibeTimeRules (some "house") RepoResult.err = Except.ok []) ∧
    ∃ l, loadVibeTimeRules (some "house") RepoResult.err = Except.ok l :=
  c7_load_amended (some "house") RepoResult.err (by simp) (by simp)


theorem sanitizeRow_spec (row : RawRow) (r : SanitizedRule)
    (hrow : sanitizeRow row = some r) :
    (0 ≤ r.start_hour ∧ r.start_hour ≤ 23 ∧ 0 ≤ r.end_hour ∧ r.end_hour ≤ 23) ∧
    (r.allowed_vibes ≠ [] ∧ ∀ v ∈ r.allowed_vibes, v ∈ VALID_VIBES) ∧
    (r.rule_type = "base" ∨ r.rule_type = "override") ∧
    (r.rule_type = "base" → r.days = none) ∧
    (r.rule_type = "override" → ∃ ds, r.days = some ds ∧ ds ≠ [] ∧
        ds.Nodup ∧ List.Sorted (· ≤ ·) ds ∧ ∀ d ∈ ds, 0 ≤ d ∧ d ≤ 6) := by
  obtain ⟨id0, name0, sh0, eh0, vibes0, days0, rt0⟩ := row
  rcases id0 with _ | idv
  · simp [sanitizeRow] at hrow
  rcases sh0 with _ | sh
  · simp [sanitizeRow] at hrow
  rcases eh0 with _ | eh
  · simp [sanitizeRow] at hrow
  rcases vibes0 with _ | vibesArr
  · simp [sanitizeRow] at hrow
  simp only [sanitizeRow] at hrow
  split_ifs at hrow with hb hv hrt
  · -- override branch
    cases days0 with
    | missing => simp at hrow
    | notArray => simp at hrow
    | arr ds =>
      simp only [] at hrow
      split_ifs at hrow with hdz
      injection hrow with h
      subst h
      refine ⟨⟨hb.1, hb.2.1, hb.2.2.1, hb.2.2.2.1⟩,
        ⟨List.length_pos.mp hv, ?_⟩, Or.inr hrt, ?_, ?_⟩
      · intro v hvmem
        exact mem_filterValidVibes v vibesArr hvmem
      · intro hbase
        exact absurd (hbase.symm.trans hrt) (by decide)
      · intro _
        refine ⟨sortedUniqueDays ds, rfl, ?_, (sortedUniqueDays_spec ds).1,
          (sortedUniqueDays_spec ds).2.1, (sortedUniqueDays_spec ds).2.2⟩
        intro hnil
        exact hdz (by rw [hnil]; rfl)
  · -- base branch
    cases days0 with
    | notArray => simp at hrow
    | arr ds => simp at hrow
    | missing =>
      injection hrow with h
      subst h
      have hbase : defaultedRuleType rt0 = "base" := by
        rcases defaultedRuleType_cases rt0 with h | h
        · exact h
        · exact absurd h hrt
      refine ⟨⟨hb.1, hb.2.1, hb.2.2.1, hb.2.2.2.1⟩,
        ⟨List.length_pos.mp hv, ?_⟩, Or.inl hbase, fun _ => rfl, ?_⟩
      · intro v hvmem
        exact mem_filterValidVibes v vibesArr hvmem
      · intro hover
        exact absurd (hbase.symm.trans hover) (by decide)

/-- C8: every rule returned by the sanitizing loader satisfies the structural
invariants — hours are in 0..23, the vibe list is non-empty and drawn from the
canonical vibes, the rule type is base or override, base rules carry no days,
and override rules carry a non-empty, duplicate-free, ascending day list with
entries in 0..6; violating rows are dropped, never returned. -/
theorem c8_sanitizer_invariants (hh : Option String) (repo : RepoResult)
    (l : List SanitizedRule) (hload : loadVibeTimeRules hh repo = Except.ok l)
    (r : SanitizedRule) (hr : r ∈ l) :
    (0 ≤ r.start_hour ∧ r.start_hour ≤ 23 ∧ 0 ≤ r.end_hour ∧ r.end_hour ≤ 23) ∧
    (r.allowed_vibes ≠ [] ∧ ∀ v ∈ r.allowed_vibes, v ∈ VALID_VIBES) ∧
    (r.rule_type = "base" ∨ r.rule_type = "override") ∧
    (r.rule_type = "base" → r.days = none) ∧
    (r.rule_type = "override" → ∃ ds, r.days = some ds ∧ ds ≠ [] ∧
        ds.Nodup ∧ List.Sorted (· ≤ ·) ds ∧ ∀ d ∈ ds, 0 ≤ d ∧ d ≤ 6) := by
  have hex : ∃ row, sanitizeRow row = some r := by
    unfold loadVibeTimeRules at hload
    split_ifs at hload
    cases repo with
    | err =>
      injection hload with h
      subst h
      cases hr
    | raise =>
      injection hload with h
      subst h
      cases hr
    | ok data =>
      injection hload with h
      subst h
      obtain ⟨row, _, hrow⟩ := List.mem_filterMap.mp hr
      exact ⟨row, hrow⟩
  obtain ⟨row, hrow⟩ := hex
  exact sanitizeRow_spec row r hrow

/-- Witness for C8: one well-formed base row loads to a rule satisfying all
the invariants. -/
theorem c8_witness :
    ((0 : Int) ≤ 9 ∧ (9 : Int) ≤ 23 ∧ (0 : Int) ≤ 17 ∧ (17 : Int) ≤ 23) ∧
    ((["Mid"] : List String) ≠ [] ∧ ∀ v ∈ (["Mid"] : List String), v ∈ VALID_VIBES) ∧
    (("base" : String) = "base" ∨ ("base" : String) = "override") ∧
    (("base" : String) = "base" → (none : Option (List Int)) = none) ∧
    (("base" : String) = "override" → ∃ ds, (none : Option (List Int)) = some ds ∧
        ds ≠ [] ∧ ds.Nodup ∧ List.Sorted (· ≤ ·) ds ∧ ∀ d ∈ ds, 0 ≤ d ∧ d ≤ 6) :=
  c8_sanitizer_invariants (some "h")
    (RepoResult.ok (some [{ id := some 1, name := none, start_hour := some 9, end_hour := some 17, allowed_vibes := some [some "Mid"], days := JsDays.missing, rule_type := some "base" }]))
    [{ id := 1, name := none, start_hour := 9, end_hour := 17, allowed_vibes := ["Mid"], days := none, rule_type := "base" }]
    rfl
    { id := 1, name := none, start_hour := 9, end_hour := 17, allowed_vibes := ["Mid"], days := none, rule_type := "base" }
    (List.mem_singleton.mpr rfl)

/-- C10: rule id 0 is treated as an absent id at the write interface —
deleting rule 0 throws `Invalid rule ID` without issuing any repository call,
and saving a rule whose id is 0 never issues an update: it either fails
validation (issuing no repository call) or issues an insert. -/
theorem c10_zero_id (r : SaveRuleInput) (hid : r.id = some 0) :
    deleteVibeTimeRule 0 = ([], Except.error "Invalid rule ID") ∧
    ((saveVibeTimeRule r).1 = [] ∨
      ∃ sh eh vs, (saveVibeTimeRule r).1 = [RepoOp.insertOp sh eh vs]) := by
  refine ⟨rfl, ?_⟩
  obtain ⟨rid, rsh, reh, rvibes⟩ := r
  simp only at hid
  subst hid
  rcases rsh with _ | sh
  · exact Or.inl rfl
  rcases reh with _ | eh
  · exact Or.inl rfl
  rcases rvibes with _ | vibesArr
  · simp only [saveVibeTimeRule]
    split_ifs <;> exact Or.inl rfl
  · simp only [saveVibeTimeRule]
    split_ifs <;>
      first
        | exact Or.inl rfl
        | exact Or.inr ⟨sh, eh, filterValidVibes vibesArr, rfl⟩
        | (rename_i hzz; exact absurd rfl hzz)

/-- Witness for C10 at a concrete valid rule carrying id 0. -/
theorem c10_witness :
    deleteVibeTimeRule 0 = ([], Except.error "Invalid rule ID") ∧
    ((saveVibeTimeRule { id := some 0, start_hour := some 9, end_hour := some 17, allowed_vibes := some [some "Mid"] }).1 = [] ∨
      ∃ sh eh vs, (saveVibeTimeRule { id := some 0, start_hour := some 9, end_hour := some 17, allowed_vibes := some [some "Mid"] }).1 = [RepoOp.insertOp sh eh vs]) :=
  c10_zero_id { id := some 0, start_hour := some 9, end_hour := some 17, allowed_vibes := some [some "Mid"] } rfl

/-- Witness for C2 at a one-day override rule on day 1 at hour 20. -/
theorem c2_witness :
    overrideRuleMatches 20 1 { id := 2, start_hour := 19, end_hour := 23, allowed_vibes := ["Down"], days := some [1], rule_type := "override" } = true ↔
      ({ id := 2, start_hour := 19, end_hour := 23, allowed_vibes := ["Down"], days := some [1], rule_type := "override" } : Rule).days = some [1] ∧
        timeRangeContainsHour 19 23 20 = true :=
  c2_override_match_amended 20 1 { id := 2, start_hour := 19, end_hour := 23, allowed_vibes := ["Down"], days := some [1], rule_type := "override" }
